import Mathlib

/-!
Verification of the interaction and camera-control layer of the voxel editor
(`voxel_editor.py`): the `EditModeProcessor` gesture machine, the `Camera`
orbit/translate model and the per-frame main loop glue, shallowly embedded in
Lean.  Pointer coordinates and thresholds of the gesture machine are embedded
as rationals (exact arithmetic); camera geometry is embedded over the reals.
-/

namespace VoxelEditor

/-! ## Edit gesture machine (`EditModeProcessor`) -/

/-- Normalized pointer coordinates, as returned by `win.get_cursor_pos()`. -/
abbrev Vec2 := ℚ × ℚ

/-- Calls the edit-mode processor issues to the `Renderer` collaborator, in
order: `raycast_voxel_grid(pos, solid)`, `add_voxel(ijk, color)`,
`delete_voxel(ijk)`. -/
inductive RendererCall : Type
  | raycast (pos : ℤ × ℤ) (solid : Bool)
  | addVoxel (ijk : ℤ × ℤ × ℤ) (color : ℚ × ℚ × ℚ)
  | deleteVoxel (ijk : ℤ × ℤ × ℤ)
deriving DecidableEq

/-- Per-frame window input consumed by `EditModeProcessor.process`:
cursor position, button states, whether `win.get_events(ti.ui.RELEASE)`
reported any release event, and the renderer's raycast oracle
(`raycast_voxel_grid`, keyed by screen position and the `solid` flag). -/
structure EditFrameInput : Type where
  cursorPos : Vec2
  lmb : Bool
  rmb : Bool
  releaseEvents : Bool
  raycast : ℤ × ℤ → Bool → Option (ℤ × ℤ × ℤ)

/-- State of `EditModeProcessor`: `_event_handled`, `_last_mouse_pos` and
`_mouse_moved`. -/
structure EditModeProcessor : Type where
  event_handled : Bool
  last_mouse_pos : Option Vec2
  mouse_moved : Bool
deriving DecidableEq

/-- Python `int()` truncation toward zero of a rational. -/
def intTrunc (q : ℚ) : ℤ := if q < 0 then -⌊-q⌋ else ⌊q⌋

/-- `SCREEN_RES = (1280, 720)`; `mouse_pos_ss = [int(mouse_pos[i] * SCREEN_RES[i])]`. -/
def screenSpace (p : Vec2) : ℤ × ℤ := (intTrunc (p.1 * 1280), intTrunc (p.2 * 720))

/-- `mov_delta`: `0` when `_last_mouse_pos is None`, else `np.dot(d, d)` for
`d = mouse_pos - _last_mouse_pos`. -/
def movDeltaSq (p : Vec2) (last : Option Vec2) : ℚ :=
  match last with
  | none => 0
  | some q => (p.1 - q.1) * (p.1 - q.1) + (p.2 - q.2) * (p.2 - q.2)

/-- `(mouse_pos != self._last_mouse_pos).any()`: numpy compares elementwise;
against `None` every element compares unequal, so the result is `true`. -/
def npAnyNe (p : Vec2) (last : Option Vec2) : Bool :=
  match last with
  | none => true
  | some q => decide (p.1 ≠ q.1) || decide (p.2 ≠ q.2)

/-- The re-arm threshold `2e-4` of the gesture machine. -/
def rearmThreshold : ℚ := 2 / 10 ^ 4

/-- The fixed color passed to `add_voxel`: `(0.6, 0.7, 0.9)`. -/
def addColor : ℚ × ℚ × ℚ := (3/5, 7/10, 9/10)

/-- `EditModeProcessor.process(mouse_exclusive_owner)`: one frame of the edit
gesture.  Returns the updated state and the list of renderer calls issued
this frame, in program order. -/
def EditModeProcessor.process (self : EditModeProcessor) (inp : EditFrameInput)
    (mouse_exclusive_owner : Bool) : EditModeProcessor × List RendererCall :=
  let mouse_pos := inp.cursorPos
  let mov_delta := movDeltaSq mouse_pos self.last_mouse_pos
  let mouse_moved := npAnyNe mouse_pos self.last_mouse_pos
  if self.event_handled = false then
    let last := some mouse_pos
    let mouse_pos_ss := screenSpace mouse_pos
    if mouse_exclusive_owner = false then
      if inp.lmb = true then
        match inp.raycast mouse_pos_ss false with
        | some ijk =>
            (⟨true, last, mouse_moved⟩,
             [RendererCall.raycast mouse_pos_ss true,
              RendererCall.raycast mouse_pos_ss false,
              RendererCall.addVoxel ijk addColor])
        | none =>
            (⟨false, last, mouse_moved⟩,
             [RendererCall.raycast mouse_pos_ss true,
              RendererCall.raycast mouse_pos_ss false])
      else if inp.rmb = true then
        match inp.raycast mouse_pos_ss true with
        | some ijk =>
            (⟨true, last, mouse_moved⟩,
             [RendererCall.raycast mouse_pos_ss true,
              RendererCall.deleteVoxel ijk])
        | none =>
            (⟨false, last, mouse_moved⟩,
             [RendererCall.raycast mouse_pos_ss true])
      else
        (⟨false, last, mouse_moved⟩,
         [RendererCall.raycast mouse_pos_ss true])
    else
      (⟨false, last, mouse_moved⟩, [])
  else if inp.releaseEvents = true ∨ mov_delta > rearmThreshold then
    (⟨false, self.last_mouse_pos, mouse_moved⟩, [])
  else
    (⟨true, self.last_mouse_pos, mouse_moved⟩, [])

/-- A run of consecutive `process` calls; each frame carries its input and the
`mouse_exclusive_owner` argument.  Collects all renderer calls in order. -/
def processRun : EditModeProcessor → List (EditFrameInput × Bool) →
    EditModeProcessor × List RendererCall
  | s, [] => (s, [])
  | s, f :: rest =>
    let r1 := s.process f.1 f.2
    let r2 := processRun r1.1 rest
    (r2.1, r1.2 ++ r2.2)

/-- Is the call an `add_voxel` call? -/
def isAdd : RendererCall → Bool
  | RendererCall.addVoxel _ _ => true
  | _ => false

/-- Is the call a grid mutation (`add_voxel` or `delete_voxel`)? -/
def isMutation : RendererCall → Bool
  | RendererCall.addVoxel _ _ => true
  | RendererCall.deleteVoxel _ => true
  | _ => false

/-- Number of `add_voxel` calls in a call list. -/
def countAdd (l : List RendererCall) : ℕ := (l.filter isAdd).length

/-- Number of grid mutations in a call list. -/
def countMutations (l : List RendererCall) : ℕ := (l.filter isMutation).length

/-! ## Main interaction loop (edit-mode/view-mode glue from `main`) -/

/-- The main-loop state that the edit branch touches: `hud_mgr.in_edit_mode`
and the persistent `edit_proc` (created once, before the loop). -/
structure LoopState : Type where
  in_edit_mode : Bool
  edit_proc : EditModeProcessor

/-- Per-frame input of one main-loop iteration: whether the HUD mode-toggle
button was clicked this frame, the edit-frame input, the value of
`camera.mouse_exclusive_owner` (Ctrl pressed), and the boolean result of
`camera.update_camera()` (the camera itself is modeled separately, over ℝ). -/
structure LoopInput : Type where
  toggle_clicked : Bool
  frame : EditFrameInput
  excl : Bool
  camera_changed : Bool

/-- `should_reset_framebuffer` as computed by the edit branch of the loop:
`edit_proc._event_handled or edit_proc._mouse_moved`, read after `process`. -/
def editShouldReset (s : EditModeProcessor) (inp : EditFrameInput) (excl : Bool) : Bool :=
  let s1 := (s.process inp excl).1
  s1.event_handled || s1.mouse_moved

/-- One iteration of the `while window.running` loop, restricted to the state
above.  Returns the new loop state, the renderer calls issued by `process`
(empty when not in edit mode), whether `clear_cast_voxel()` was called, and
the final `should_reset_framebuffer` (the edit branch's flag OR-ed with the
camera-change flag). -/
def loopStep (s : LoopState) (i : LoopInput) : LoopState × List RendererCall × Bool × Bool :=
  let in_edit := if i.toggle_clicked then !s.in_edit_mode else s.in_edit_mode
  let edit_mode_changed := i.toggle_clicked
  if in_edit then
    let r := s.edit_proc.process i.frame i.excl
    (⟨in_edit, r.1⟩, r.2, false,
     (r.1.event_handled || r.1.mouse_moved) || i.camera_changed)
  else
    (⟨in_edit, s.edit_proc⟩, [], edit_mode_changed, i.camera_changed)

/-! ## Camera (`Camera`, `np_normalize`, `np_rotate_matrix`), over ℝ -/

/-- 3D vectors, componentwise arithmetic as in numpy. -/
abbrev V3 := ℝ × ℝ × ℝ

/-- `np.dot` for 3-vectors. -/
def dot3 (u v : V3) : ℝ := u.1 * v.1 + u.2.1 * v.2.1 + u.2.2 * v.2.2

/-- `np.cross` for 3-vectors. -/
def cross3 (u v : V3) : V3 :=
  (u.2.1 * v.2.2 - u.2.2 * v.2.1,
   u.2.2 * v.1 - u.1 * v.2.2,
   u.1 * v.2.1 - u.2.1 * v.1)

/-- `np_normalize(v) = v / np.sqrt(np.sum(v**2))`. -/
noncomputable def npNormalize (v : V3) : V3 :=
  let s := Real.sqrt (dot3 v v)
  (v.1 / s, v.2.1 / s, v.2.2 / s)

/-- `np_rotate_matrix(axis, theta)`: the homogeneous 4×4 rotation matrix
about `np_normalize(axis)` by `theta` radians, built by the half-angle
quaternion expansion exactly as in the source. -/
noncomputable def npRotateMatrix (axis : V3) (theta : ℝ) : Matrix (Fin 4) (Fin 4) ℝ :=
  let u := npNormalize axis
  let a := Real.cos (theta / 2)
  let b := -u.1 * Real.sin (theta / 2)
  let c := -u.2.1 * Real.sin (theta / 2)
  let d := -u.2.2 * Real.sin (theta / 2)
  Matrix.of
    ![![a * a + b * b - c * c - d * d, 2 * (b * c + a * d), 2 * (b * d - a * c), 0],
      ![2 * (b * c - a * d), a * a + c * c - b * b - d * d, 2 * (c * d + a * b), 0],
      ![2 * (b * d + a * c), 2 * (c * d - a * b), a * a + d * d - b * b - c * c, 0],
      ![0, 0, 0, 1]]

/-- `Camera` state: `_camera_pos`, `_lookat_pos`, `_up`, `_last_mouse_pos`.
The window handle is replaced by per-frame inputs. -/
structure Camera : Type where
  camera_pos : V3
  lookat_pos : V3
  up : V3
  last_mouse_pos : Option (ℝ × ℝ)

/-- `Camera.__init__(window, up)`. -/
noncomputable def Camera.init (up : V3) : Camera :=
  ⟨(1, 3/2, 2), (0, 0, 0), npNormalize up, none⟩

/-- Per-frame window input consumed by the camera: Ctrl (the
`mouse_exclusive_owner` modifier), the left mouse button, the cursor
position, and the six movement keys in the source's lookup order. -/
structure CamInput : Type where
  ctrl : Bool
  lmb : Bool
  cursor : ℝ × ℝ
  keyW : Bool
  keyA : Bool
  keyS : Bool
  keyD : Bool
  keyE : Bool
  keyQ : Bool

/-- `Camera._compute_left_dir(tgtdir)`. -/
noncomputable def Camera.computeLeftDir (cam : Camera) (tgtdir : V3) : V3 :=
  if |dot3 cam.up tgtdir| > 999 / 1000 then (-1, 0, 0)
  else cross3 cam.up tgtdir

/-- `Camera.target_dir = np_normalize(look_at - position)`. -/
noncomputable def Camera.targetDir (cam : Camera) : V3 :=
  npNormalize (cam.lookat_pos - cam.camera_pos)

/-- `Camera._update_by_mouse()`: returns the updated camera and the boolean
the method returns. -/
noncomputable def Camera.updateByMouse (cam : Camera) (inp : CamInput) : Camera × Bool :=
  if !inp.ctrl || !inp.lmb then ({cam with last_mouse_pos := none}, false)
  else
    match cam.last_mouse_pos with
    | none => ({cam with last_mouse_pos := some inp.cursor}, false)
    | some lp =>
      let dx := lp.1 - inp.cursor.1
      let dy := lp.2 - inp.cursor.2
      let out_dir := cam.camera_pos - cam.lookat_pos
      let leftdir := cam.computeLeftDir (npNormalize (-out_dir))
      let rotx := npRotateMatrix cam.up dx
      let roty := npRotateMatrix leftdir dy
      let w := (roty * rotx).mulVec ![out_dir.1, out_dir.2.1, out_dir.2.2, 0]
      ({cam with camera_pos := cam.lookat_pos + ((w 0, w 1, w 2) : V3),
                 last_mouse_pos := some inp.cursor}, true)

/-- `Camera._update_by_wasd()`: the priority lookup over
`[(w, tgtdir), (a, leftdir), (s, -tgtdir), (d, -leftdir), (e, up), (q, down)]`,
first pressed key wins; the chosen direction scaled by `0.05` is added to
both `_lookat_pos` and `_camera_pos`. -/
noncomputable def Camera.updateByWasd (cam : Camera) (inp : CamInput) : Camera × Bool :=
  let tgtdir := cam.targetDir
  let leftdir := cam.computeLeftDir tgtdir
  let dirFound : Option V3 :=
    if inp.keyW then some tgtdir
    else if inp.keyA then some leftdir
    else if inp.keyS then some (-tgtdir)
    else if inp.keyD then some (-leftdir)
    else if inp.keyE then some ((0, 1, 0) : V3)
    else if inp.keyQ then some ((0, -1, 0) : V3)
    else none
  match dirFound with
  | none => (cam, false)
  | some d0 =>
    let d := ((5 : ℝ) / 100) • d0
    ({cam with lookat_pos := cam.lookat_pos + d, camera_pos := cam.camera_pos + d}, true)

/-- `Camera.update_camera()`: mouse rotation first; the WASD path is
evaluated only when the mouse path reported no change (Python `or`
short-circuits). -/
noncomputable def Camera.updateCamera (cam : Camera) (inp : CamInput) : Camera × Bool :=
  let r := cam.updateByMouse inp
  if r.2 then (r.1, true) else r.1.updateByWasd inp

/-! ## Helper lemmas about the gesture machine -/

theorem process_mouse_moved (s : EditModeProcessor) (inp : EditFrameInput) (excl : Bool) :
    (s.process inp excl).1.mouse_moved = npAnyNe inp.cursorPos s.last_mouse_pos := by
  simp only [EditModeProcessor.process]
  repeat' split
  all_goals rfl

theorem process_last (s : EditModeProcessor) (inp : EditFrameInput) (excl : Bool) :
    (s.process inp excl).1.last_mouse_pos =
      if s.event_handled then s.last_mouse_pos else some inp.cursorPos := by
  rcases s with ⟨e, l, m⟩
  cases e
  · simp only [EditModeProcessor.process]
    repeat' split
    all_goals simp_all
  · simp only [EditModeProcessor.process]
    repeat' split
    all_goals simp_all

theorem process_ready_commit (s : EditModeProcessor) (inp : EditFrameInput)
    (v : ℤ × ℤ × ℤ)
    (hs : s.event_handled = false) (hl : inp.lmb = true)
    (hray : inp.raycast (screenSpace inp.cursorPos) false = some v) :
    s.process inp false =
      (⟨true, some inp.cursorPos, npAnyNe inp.cursorPos s.last_mouse_pos⟩,
       [RendererCall.raycast (screenSpace inp.cursorPos) true,
        RendererCall.raycast (screenSpace inp.cursorPos) false,
        RendererCall.addVoxel v addColor]) := by
  simp [EditModeProcessor.process, hs, hl, hray]

theorem process_held (s : EditModeProcessor) (inp : EditFrameInput) (excl : Bool)
    (hs : s.event_handled = true) :
    s.process inp excl =
      (⟨if inp.releaseEvents = true ∨ movDeltaSq inp.cursorPos s.last_mouse_pos > rearmThreshold
          then false else true,
        s.last_mouse_pos, npAnyNe inp.cursorPos s.last_mouse_pos⟩, []) := by
  simp only [EditModeProcessor.process, hs]
  split <;> split <;> simp_all

theorem npAnyNe_self (p : Vec2) : npAnyNe p (some p) = false := by
  simp [npAnyNe]

theorem movDeltaSq_self (p : Vec2) : movDeltaSq p (some p) = 0 := by
  simp [movDeltaSq]

/-- A stationary pointer with no release keeps the machine in Held across any
number of frames, issuing no renderer calls. -/
theorem held_stay_run (p : Vec2) (inp : EditFrameInput) (excl : Bool) (k : ℕ) (m : Bool)
    (hc : inp.cursorPos = p) (hr : inp.releaseEvents = false) :
    processRun ⟨true, some p, m⟩ (List.replicate k (inp, excl)) =
      (⟨true, some p, if k = 0 then m else false⟩, []) := by
  induction k generalizing m with
  | zero => simp [processRun]
  | succ k ih =>
    have hstep : EditModeProcessor.process ⟨true, some p, m⟩ inp excl =
        (⟨true, some p, false⟩, []) := by
      rw [process_held _ _ _ rfl]
      simp [hc, hr, npAnyNe_self, movDeltaSq_self, rearmThreshold]
      norm_num
    simp only [List.replicate_succ, processRun, hstep, ih]
    simp

/-! ## Claim theorems: edit gesture and loop -/

/-- C1: across a run of consecutive `process` calls with the left button held,
no release event, a stationary pointer, exclusive-owner false and the
non-solid raycast returning a valid empty cell, starting from the Ready
state, exactly one `addVoxel` call is issued (on the first frame, the run's
only Ready-state frame) and the machine is Held after every frame. -/
theorem one_mutation_per_press (s : EditModeProcessor) (inp : EditFrameInput)
    (v : ℤ × ℤ × ℤ) (n : ℕ)
    (hs : s.event_handled = false)
    (hl : inp.lmb = true)
    (hr : inp.releaseEvents = false)
    (hray : inp.raycast (screenSpace inp.cursorPos) false = some v) :
    countAdd (processRun s (List.replicate (n + 1) (inp, false))).2 = 1 ∧
    countAdd (s.process inp false).2 = 1 ∧
    ∀ k, 0 < k → k ≤ n + 1 →
      (processRun s (List.replicate k (inp, false))).1.event_handled = true := by
  have hfirst := process_ready_commit s inp v hs hl hray
  have hrun : ∀ j : ℕ, processRun s (List.replicate (j + 1) (inp, false)) =
      (⟨true, some inp.cursorPos,
        if j = 0 then npAnyNe inp.cursorPos s.last_mouse_pos else false⟩,
       [RendererCall.raycast (screenSpace inp.cursorPos) true,
        RendererCall.raycast (screenSpace inp.cursorPos) false,
        RendererCall.addVoxel v addColor]) := by
    intro j
    rw [List.replicate_succ]
    simp only [processRun, hfirst]
    rw [held_stay_run inp.cursorPos inp false j _ rfl hr]
    simp
  refine ⟨?_, ?_, ?_⟩
  · rw [hrun n]; rfl
  · rw [hfirst]; rfl
  · intro k hk _
    obtain ⟨j, rfl⟩ : ∃ j, k = j + 1 := ⟨k - 1, (Nat.succ_pred_eq_of_pos hk).symm⟩
    rw [hrun j]

/-- Witness for C1: a concrete 10-frame stationary press issues exactly one
`addVoxel`. -/
theorem one_mutation_per_press_witness :
    (let inp : EditFrameInput :=
      { cursorPos := (1/2, 1/2), lmb := true, rmb := false, releaseEvents := false,
        raycast := fun _ _ => some (3, 4, 5) }
     let s : EditModeProcessor := ⟨false, none, false⟩
     s.event_handled = false ∧ inp.lmb = true ∧ inp.releaseEvents = false ∧
     inp.raycast (screenSpace inp.cursorPos) false = some (3, 4, 5) ∧
     (countAdd (processRun s (List.replicate 10 (inp, false))).2 = 1 ∧
      countAdd (s.process inp false).2 = 1 ∧
      ∀ k, 0 < k → k ≤ 10 →
        (processRun s (List.replicate k (inp, false))).1.event_handled = true)) :=
  ⟨rfl, rfl, rfl, rfl,
   one_mutation_per_press ⟨false, none, false⟩ _ (3, 4, 5) 9 rfl rfl rfl rfl⟩

/-- C3 counterexample: a Held-state call does not update `lastPointerPos` to
the current pointer position — the recorded position stays at `(0, 0)`
although the pointer is at `(1/2, 1/2)`. -/
theorem last_pointer_update_cex :
    ((EditModeProcessor.process ⟨true, some (0, 0), false⟩
        { cursorPos := (1/2, 1/2), lmb := false, rmb := false, releaseEvents := false,
          raycast := fun _ _ => none } false).1.last_mouse_pos
      = some ((0 : ℚ), (0 : ℚ)))
    ∧ (((1 : ℚ)/2, (1 : ℚ)/2) ≠ ((0 : ℚ), (0 : ℚ))) := by
  refine ⟨?_, ?_⟩
  · rw [process_last]; rfl
  · norm_num [Prod.ext_iff]

/-- C3 (amended): `lastPointerPos` is updated to the current pointer only on
Ready-state calls; Held-state calls leave it unchanged, so the delta is
measured against the position recorded at the most recent Ready-state
frame. -/
theorem last_pointer_update_rule (s : EditModeProcessor) (inp : EditFrameInput) (excl : Bool) :
    (s.process inp excl).1.last_mouse_pos =
      if s.event_handled then s.last_mouse_pos else some inp.cursorPos :=
  process_last s inp excl

/-- C4 counterexample: with the pointer drifting `0.014` per frame, the
frame-3 displacement relative to the immediately previous frame is
`1.96e-4 ≤ 2e-4` and no release occurs, yet the machine re-arms (leaves
Held), because the code measures displacement from the position recorded at
the last Ready-state frame. -/
theorem held_rearm_prev_frame_cex :
    (let oracle : ℤ × ℤ → Bool → Option (ℤ × ℤ × ℤ) := fun _ _ => some (0, 0, 0)
     let f1 : EditFrameInput :=
       { cursorPos := (0, 0), lmb := true, rmb := false, releaseEvents := false,
         raycast := oracle }
     let f2 : EditFrameInput :=
       { cursorPos := (14/1000, 0), lmb := true, rmb := false, releaseEvents := false,
         raycast := oracle }
     let f3 : EditFrameInput :=
       { cursorPos := (28/1000, 0), lmb := true, rmb := false, releaseEvents := false,
         raycast := oracle }
     let s0 : EditModeProcessor := ⟨false, none, false⟩
     (processRun s0 [(f1, false), (f2, false)]).1.event_handled = true ∧
     movDeltaSq f3.cursorPos (some f2.cursorPos) ≤ rearmThreshold ∧
     f3.releaseEvents = false ∧
     (processRun s0 [(f1, false), (f2, false), (f3, false)]).1.event_handled = false) := by
  have e1 : EditModeProcessor.process ⟨false, none, false⟩
      { cursorPos := ((0 : ℚ), (0 : ℚ)), lmb := true, rmb := false, releaseEvents := false,
        raycast := fun _ _ => some (0, 0, 0) } false
      = (⟨true, some (0, 0), true⟩,
         [RendererCall.raycast (screenSpace (0, 0)) true,
          RendererCall.raycast (screenSpace (0, 0)) false,
          RendererCall.addVoxel (0, 0, 0) addColor]) := by
    rw [process_ready_commit _ _ (0, 0, 0) rfl rfl rfl]; rfl
  have e2 : EditModeProcessor.process ⟨true, some (0, 0), true⟩
      { cursorPos := ((14 : ℚ)/1000, (0 : ℚ)), lmb := true, rmb := false,
        releaseEvents := false, raycast := fun _ _ => some (0, 0, 0) } false
      = (⟨true, some (0, 0), true⟩, []) := by
    rw [process_held _ _ _ rfl]
    norm_num [movDeltaSq, rearmThreshold, npAnyNe]
  have e3 : EditModeProcessor.process ⟨true, some (0, 0), true⟩
      { cursorPos := ((28 : ℚ)/1000, (0 : ℚ)), lmb := true, rmb := false,
        releaseEvents := false, raycast := fun _ _ => some (0, 0, 0) } false
      = (⟨false, some (0, 0), true⟩, []) := by
    rw [process_held _ _ _ rfl]
    norm_num [movDeltaSq, rearmThreshold, npAnyNe]
  refine ⟨?_, ?_, rfl, ?_⟩
  · simp only [processRun, e1, e2]
  · norm_num [movDeltaSq, rearmThreshold]
  · simp only [processRun, e1, e2, e3]

/-- C4 (amended): a Held-state call transitions back to Ready exactly when a
release event occurred or the squared displacement relative to the *last
recorded* pointer position (the most recent Ready-state frame) exceeds
`2e-4`; it issues no renderer calls and leaves `lastPointerPos` unchanged. -/
theorem held_transition_rule (s : EditModeProcessor) (inp : EditFrameInput) (excl : Bool)
    (h : s.event_handled = true) :
    ((s.process inp excl).1.event_handled = false ↔
      (inp.releaseEvents = true ∨
        movDeltaSq inp.cursorPos s.last_mouse_pos > rearmThreshold)) ∧
    (s.process inp excl).2 = [] ∧
    (s.process inp excl).1.last_mouse_pos = s.last_mouse_pos := by
  rw [process_held s inp excl h]
  refine ⟨?_, rfl, rfl⟩
  dsimp only
  split <;> simp_all

/-- Witness for C4: the Held machine at recorded position `(0,0)` with the
pointer at `(1,1)` re-arms. -/
theorem held_transition_rule_witness :
    (let inp : EditFrameInput :=
      { cursorPos := (1, 1), lmb := false, rmb := false, releaseEvents := false,
        raycast := fun _ _ => none }
     let s : EditModeProcessor := ⟨true, some (0, 0), false⟩
     s.event_handled = true ∧
     (((s.process inp false).1.event_handled = false ↔
        (inp.releaseEvents = true ∨
          movDeltaSq inp.cursorPos s.last_mouse_pos > rearmThreshold)) ∧
      (s.process inp false).2 = [] ∧
      (s.process inp false).1.last_mouse_pos = s.last_mouse_pos)) :=
  ⟨rfl, held_transition_rule ⟨true, some (0, 0), false⟩ _ false rfl⟩

/-- C5: with the exclusive-owner flag true (camera-rotation modifier held),
`process` issues no renderer calls at all — no raycast and no mutation —
whatever the state and the button flags. -/
theorem exclusive_owner_no_calls (s : EditModeProcessor) (inp : EditFrameInput) :
    (s.process inp true).2 = [] := by
  rcases s with ⟨e, l, m⟩
  cases e
  · simp [EditModeProcessor.process]
  · rw [process_held ⟨true, l, m⟩ inp true rfl]

/-- C10: on the very first `process` call (`lastPointerPos = none`),
`mouse_moved` is reported true regardless of the pointer position (numpy's
elementwise `!=` against `None` is everywhere true), so the loop's edit
branch invalidates the image. -/
theorem first_frame_mouse_moved (s : EditModeProcessor) (inp : EditFrameInput) (excl : Bool)
    (h : s.last_mouse_pos = none) :
    (s.process inp excl).1.mouse_moved = true ∧
    editShouldReset s inp excl = true ∧
    ∀ cch : Bool,
      (loopStep ⟨true, s⟩ ⟨false, inp, excl, cch⟩).2.2.2 = true := by
  have hm : (s.process inp excl).1.mouse_moved = true := by
    rw [process_mouse_moved, h]; rfl
  refine ⟨hm, ?_, ?_⟩
  · simp [editShouldReset, hm]
  · intro cch
    simp [loopStep, hm]

/-- C2 counterexample: a Held-state edit frame with a stationary pointer and
no new mutation still invalidates the image (the code ORs in the persistent
`_event_handled` flag, not "a mutation was committed this frame"). -/
theorem invalidate_iff_mutation_or_move_cex :
    (let inp : EditFrameInput :=
      { cursorPos := (1/2, 1/2), lmb := true, rmb := false, releaseEvents := false,
        raycast := fun _ _ => some (3, 4, 5) }
     let s : EditModeProcessor := ⟨true, some (1/2, 1/2), false⟩
     countMutations (s.process inp false).2 = 0 ∧
     inp.cursorPos = (1/2, 1/2) ∧ s.last_mouse_pos = some (1/2, 1/2) ∧
     editShouldReset s inp false = true ∧
     (loopStep ⟨true, s⟩ ⟨false, inp, false, false⟩).2.2.2 = true) := by
  have hstep : EditModeProcessor.process ⟨true, some (1/2, 1/2), false⟩
      { cursorPos := ((1 : ℚ)/2, (1 : ℚ)/2), lmb := true, rmb := false,
        releaseEvents := false, raycast := fun _ _ => some (3, 4, 5) } false
      = (⟨true, some (1/2, 1/2), false⟩, []) := by
    rw [process_held _ _ _ rfl]
    norm_num [movDeltaSq, rearmThreshold, npAnyNe]
  refine ⟨?_, rfl, rfl, ?_, ?_⟩
  · rw [hstep]; rfl
  · simp only [editShouldReset]
    rw [hstep]
    rfl
  · simp only [loopStep, Bool.not_false, Bool.not_true]
    rw [hstep]
    rfl

/-- C2 (amended): in edit mode the image is invalidated exactly when the
gesture ends the frame armed (Held — a mutation of the current press is
pending release), or the pointer differs from the last recorded pointer
position (with an absent recorded position counting as moved), or the
camera reported a change. -/
theorem invalidate_iff_armed_or_moved (s : LoopState) (i : LoopInput)
    (h : (if i.toggle_clicked then !s.in_edit_mode else s.in_edit_mode) = true) :
    (loopStep s i).2.2.2 =
      ((s.edit_proc.process i.frame i.excl).1.event_handled
        || npAnyNe i.frame.cursorPos s.edit_proc.last_mouse_pos
        || i.camera_changed) := by
  simp only [loopStep, h, if_true, process_mouse_moved]

/-- Witness for C2's amended statement at a concrete Held stationary frame. -/
theorem invalidate_iff_armed_or_moved_witness :
    (let inp : EditFrameInput :=
      { cursorPos := (0, 0), lmb := true, rmb := false, releaseEvents := false,
        raycast := fun _ _ => some (3, 4, 5) }
     let s : LoopState := ⟨true, ⟨true, some (0, 0), false⟩⟩
     let i : LoopInput := ⟨false, inp, false, false⟩
     (if i.toggle_clicked then !s.in_edit_mode else s.in_edit_mode) = true ∧
     (loopStep s i).2.2.2 =
       ((s.edit_proc.process i.frame i.excl).1.event_handled
         || npAnyNe i.frame.cursorPos s.edit_proc.last_mouse_pos
         || i.camera_changed)) :=
  ⟨rfl, invalidate_iff_armed_or_moved ⟨true, ⟨true, some (0, 0), false⟩⟩ _ rfl⟩

/-- C8 counterexample: the gesture processor is created once and never reset;
after a session ending Held, toggling to view mode and back into edit mode
leaves `armed = true` on the first re-entered edit frame, so a held button
with a valid target adds no voxel there. -/
theorem rearm_on_mode_reentry_cex :
    (let inp : EditFrameInput :=
      { cursorPos := (3/5, 3/5), lmb := true, rmb := false, releaseEvents := false,
        raycast := fun _ _ => some (3, 4, 5) }
     let i : LoopInput := ⟨true, inp, false, false⟩
     let s0 : LoopState := ⟨false, ⟨false, none, false⟩⟩
     let s1 := (loopStep s0 i).1
     let s2 := (loopStep s1 i).1
     let r3 := loopStep s2 i
     s1.in_edit_mode = true ∧ s1.edit_proc.event_handled = true ∧
     s2.in_edit_mode = false ∧ s2.edit_proc.event_handled = true ∧
     r3.1.in_edit_mode = true ∧ r3.1.edit_proc.event_handled = true ∧
     countAdd r3.2.1 = 0) := by
  have e1 : EditModeProcessor.process ⟨false, none, false⟩
      { cursorPos := ((3 : ℚ)/5, (3 : ℚ)/5), lmb := true, rmb := false,
        releaseEvents := false, raycast := fun _ _ => some (3, 4, 5) } false
      = (⟨true, some (3/5, 3/5), true⟩,
         [RendererCall.raycast (screenSpace (3/5, 3/5)) true,
          RendererCall.raycast (screenSpace (3/5, 3/5)) false,
          RendererCall.addVoxel (3, 4, 5) addColor]) := by
    rw [process_ready_commit _ _ (3, 4, 5) rfl rfl rfl]; rfl
  have e3 : EditModeProcessor.process ⟨true, some (3/5, 3/5), true⟩
      { cursorPos := ((3 : ℚ)/5, (3 : ℚ)/5), lmb := true, rmb := false,
        releaseEvents := false, raycast := fun _ _ => some (3, 4, 5) } false
      = (⟨true, some (3/5, 3/5), false⟩, []) := by
    rw [process_held _ _ _ rfl]
    norm_num [movDeltaSq, rearmThreshold, npAnyNe]
  simp [loopStep, Bool.not_false, Bool.not_true, e1, e3, countAdd, isAdd]

/-- C8 (amended): re-entering edit mode does not reset the armed flag; the
first re-entered edit frame runs `process` on the state persisted from the
previous session, and a previously-Held gesture stays Held there unless a
release event occurred or the pointer moved beyond the threshold. -/
theorem armed_persists_across_modes (s : LoopState) (i : LoopInput)
    (h1 : s.in_edit_mode = false) (h2 : i.toggle_clicked = true) :
    (loopStep s i).1.in_edit_mode = true ∧
    (loopStep s i).1.edit_proc = (s.edit_proc.process i.frame i.excl).1 ∧
    (s.edit_proc.event_handled = true → i.frame.releaseEvents = false →
      ¬ movDeltaSq i.frame.cursorPos s.edit_proc.last_mouse_pos > rearmThreshold →
      (loopStep s i).1.edit_proc.event_handled = true) := by
  have hloop : loopStep s i =
      (⟨true, (s.edit_proc.process i.frame i.excl).1⟩,
       (s.edit_proc.process i.frame i.excl).2, false,
       ((s.edit_proc.process i.frame i.excl).1.event_handled
         || (s.edit_proc.process i.frame i.excl).1.mouse_moved) || i.camera_changed) := by
    simp [loopStep, h1, h2]
  refine ⟨by rw [hloop], by rw [hloop], ?_⟩
  intro he hr hm
  rw [hloop]
  show (s.edit_proc.process i.frame i.excl).1.event_handled = true
  rw [process_held _ _ _ he]
  simp [hr, hm]

/-- Witness for C8's amended statement: a Held gesture survives a view-mode
round trip. -/
theorem armed_persists_across_modes_witness :
    (let inp : EditFrameInput :=
      { cursorPos := (0, 0), lmb := true, rmb := false, releaseEvents := false,
        raycast := fun _ _ => some (3, 4, 5) }
     let i : LoopInput := ⟨true, inp, false, false⟩
     let s : LoopState := ⟨false, ⟨true, some (0, 0), false⟩⟩
     s.in_edit_mode = false ∧ i.toggle_clicked = true ∧
     ((loopStep s i).1.in_edit_mode = true ∧
      (loopStep s i).1.edit_proc = (s.edit_proc.process i.frame i.excl).1 ∧
      (s.edit_proc.event_handled = true → i.frame.releaseEvents = false →
        ¬ movDeltaSq i.frame.cursorPos s.edit_proc.last_mouse_pos > rearmThreshold →
        (loopStep s i).1.edit_proc.event_handled = true))) :=
  ⟨rfl, rfl, armed_persists_across_modes ⟨false, ⟨true, some (0, 0), false⟩⟩ _ rfl rfl⟩

/-! ## Claim theorems: camera -/

/-- C6: when the rotation path runs with a recorded previous pointer position
(modifier and primary button held), the new position is
`lookAt + (roty * rotx) · homogeneous(position − lookAt)` with
`(dx, dy) = lastPointerPos − currentPointerPos`, `rotx` the rotation about
`up` by `dx` and `roty` the rotation about `leftDir` by `dy`; `lookAt` and
`up` are unchanged and the method reports a change. -/
theorem mouse_rotation_formula (cam : Camera) (inp : CamInput) (lp : ℝ × ℝ)
    (hc : inp.ctrl = true) (hl : inp.lmb = true) (hp : cam.last_mouse_pos = some lp) :
    (let dx := lp.1 - inp.cursor.1
     let dy := lp.2 - inp.cursor.2
     let outDir := cam.camera_pos - cam.lookat_pos
     let leftdir := cam.computeLeftDir (npNormalize (-outDir))
     let rotx := npRotateMatrix cam.up dx
     let roty := npRotateMatrix leftdir dy
     let w := (roty * rotx).mulVec ![outDir.1, outDir.2.1, outDir.2.2, 0]
     (cam.updateByMouse inp).1.camera_pos = cam.lookat_pos + ((w 0, w 1, w 2) : V3) ∧
     (cam.updateByMouse inp).1.lookat_pos = cam.lookat_pos ∧
     (cam.updateByMouse inp).1.up = cam.up ∧
     (cam.updateByMouse inp).2 = true) := by
  simp [Camera.updateByMouse, hc, hl, hp]

theorem dot3_pos (v : V3) (hv : v ≠ 0) : 0 < dot3 v v := by
  rcases v with ⟨x, y, z⟩
  have hne : x ≠ 0 ∨ y ≠ 0 ∨ z ≠ 0 := by
    by_contra hcon
    push_neg at hcon
    exact hv (by simp [Prod.ext_iff, hcon.1, hcon.2.1, hcon.2.2])
  simp only [dot3]
  rcases hne with h | h | h <;>
    nlinarith [mul_self_nonneg x, mul_self_nonneg y, mul_self_nonneg z, mul_self_pos.mpr h]

theorem ne_zero_of_dot3_pos (v : V3) (h : 0 < dot3 v v) : v ≠ 0 := by
  intro h0
  rw [h0] at h
  norm_num [dot3] at h

theorem npNormalize_normSq (v : V3) (hv : v ≠ 0) : dot3 (npNormalize v) (npNormalize v) = 1 := by
  have hp := dot3_pos v hv
  have hsq : Real.sqrt (dot3 v v) * Real.sqrt (dot3 v v) = dot3 v v :=
    Real.mul_self_sqrt hp.le
  have hs0 : Real.sqrt (dot3 v v) ≠ 0 := ne_of_gt (Real.sqrt_pos.mpr hp)
  simp only [npNormalize, dot3] at *
  field_simp

theorem quatRowsNormSq (a b c d x y z : ℝ) :
    ((a*a + b*b - c*c - d*d) * x + 2*(b*c + a*d) * y + 2*(b*d - a*c) * z) *
      ((a*a + b*b - c*c - d*d) * x + 2*(b*c + a*d) * y + 2*(b*d - a*c) * z)
    + (2*(b*c - a*d) * x + (a*a + c*c - b*b - d*d) * y + 2*(c*d + a*b) * z) *
      (2*(b*c - a*d) * x + (a*a + c*c - b*b - d*d) * y + 2*(c*d + a*b) * z)
    + (2*(b*d + a*c) * x + 2*(c*d - a*b) * y + (a*a + d*d - b*b - c*c) * z) *
      (2*(b*d + a*c) * x + 2*(c*d - a*b) * y + (a*a + d*d - b*b - c*c) * z)
    = (a*a + b*b + c*c + d*d) * (a*a + b*b + c*c + d*d) * (x*x + y*y + z*z) := by
  ring

theorem rot_mulVec_comp3 (axis : V3) (theta : ℝ) (v : Fin 4 → ℝ) (hv : v 3 = 0) :
    ((npRotateMatrix axis theta).mulVec v) 3 = 0 := by
  simp [npRotateMatrix, Matrix.mulVec, Matrix.dotProduct, Fin.sum_univ_four, hv]

theorem rot_mulVec_normSq (axis : V3) (theta : ℝ) (ha : axis ≠ 0) (v : Fin 4 → ℝ)
    (hv : v 3 = 0) :
    ((npRotateMatrix axis theta).mulVec v) 0 * ((npRotateMatrix axis theta).mulVec v) 0
      + ((npRotateMatrix axis theta).mulVec v) 1 * ((npRotateMatrix axis theta).mulVec v) 1
      + ((npRotateMatrix axis theta).mulVec v) 2 * ((npRotateMatrix axis theta).mulVec v) 2
    = v 0 * v 0 + v 1 * v 1 + v 2 * v 2 := by
  rcases hu : npNormalize axis with ⟨n1, n2, n3⟩
  have hn : dot3 (npNormalize axis) (npNormalize axis) = 1 := npNormalize_normSq axis ha
  rw [hu] at hn
  have hn' : n1 * n1 + n2 * n2 + n3 * n3 = 1 := hn
  have hsc := Real.sin_sq_add_cos_sq (theta / 2)
  have hS : Real.cos (theta/2) * Real.cos (theta/2)
      + (-n1 * Real.sin (theta/2)) * (-n1 * Real.sin (theta/2))
      + (-n2 * Real.sin (theta/2)) * (-n2 * Real.sin (theta/2))
      + (-n3 * Real.sin (theta/2)) * (-n3 * Real.sin (theta/2)) = 1 := by
    linear_combination (Real.sin (theta/2) * Real.sin (theta/2)) * hn' + hsc
  have key := quatRowsNormSq (Real.cos (theta/2)) (-n1 * Real.sin (theta/2))
    (-n2 * Real.sin (theta/2)) (-n3 * Real.sin (theta/2)) (v 0) (v 1) (v 2)
  simp [npRotateMatrix, hu, Matrix.mulVec, Matrix.dotProduct, Fin.sum_univ_four, hv]
  linear_combination key +
    ((v 0 * v 0 + v 1 * v 1 + v 2 * v 2) *
      (Real.cos (theta/2) * Real.cos (theta/2)
        + (-n1 * Real.sin (theta/2)) * (-n1 * Real.sin (theta/2))
        + (-n2 * Real.sin (theta/2)) * (-n2 * Real.sin (theta/2))
        + (-n3 * Real.sin (theta/2)) * (-n3 * Real.sin (theta/2)) + 1)) * hS

/-- Composing the two homogeneous rotations of `_update_by_mouse` preserves the
squared norm of the 3-vector part. -/
theorem rot2_normSq (ax1 ax2 : V3) (t1 t2 : ℝ) (h1 : ax1 ≠ 0) (h2 : ax2 ≠ 0) (o : V3) :
    (let w := (npRotateMatrix ax2 t2 * npRotateMatrix ax1 t1).mulVec ![o.1, o.2.1, o.2.2, 0]
     dot3 (w 0, w 1, w 2) (w 0, w 1, w 2) = dot3 o o) := by
  show dot3 _ _ = dot3 o o
  rw [← Matrix.mulVec_mulVec]
  have hu3 : (![o.1, o.2.1, o.2.2, 0] : Fin 4 → ℝ) 3 = 0 := by simp
  have e13 := rot_mulVec_comp3 ax1 t1 _ hu3
  have e1 := rot_mulVec_normSq ax1 t1 h1 _ hu3
  have e2 := rot_mulVec_normSq ax2 t2 h2 _ e13
  simp only [dot3]
  rw [e2, e1]
  simp

theorem cross3_normSq (u t : V3) :
    dot3 (cross3 u t) (cross3 u t) = dot3 u u * dot3 t t - dot3 u t * dot3 u t := by
  rcases u with ⟨a, b, c⟩
  rcases t with ⟨x, y, z⟩
  simp only [dot3, cross3]
  ring

theorem computeLeftDir_ne_zero (cam : Camera) (t : V3)
    (hup : dot3 cam.up cam.up = 1) (ht : dot3 t t = 1) :
    cam.computeLeftDir t ≠ 0 := by
  unfold Camera.computeLeftDir
  split
  · norm_num [Prod.ext_iff]
  · rename_i h
    push_neg at h
    apply ne_zero_of_dot3_pos
    rw [cross3_normSq, hup, ht]
    have habs : dot3 cam.up t * dot3 cam.up t ≤ (999/1000) * (999/1000) := by
      nlinarith [sq_abs (dot3 cam.up t), abs_nonneg (dot3 cam.up t), h]
    nlinarith

theorem wasd_up_diff (cam : Camera) (inp : CamInput) :
    (cam.updateByWasd inp).1.up = cam.up ∧
    (cam.updateByWasd inp).1.camera_pos - (cam.updateByWasd inp).1.lookat_pos
      = cam.camera_pos - cam.lookat_pos := by
  unfold Camera.updateByWasd
  repeat' split
  all_goals simp [add_sub_add_right_eq_sub]

theorem updateByMouse_nochange (cam : Camera) (inp : CamInput)
    (h : (cam.updateByMouse inp).2 = false) :
    (cam.updateByMouse inp).1.camera_pos = cam.camera_pos ∧
    (cam.updateByMouse inp).1.lookat_pos = cam.lookat_pos ∧
    (cam.updateByMouse inp).1.up = cam.up := by
  by_cases hc : (!inp.ctrl || !inp.lmb) = true
  · have hm : cam.updateByMouse inp = ({cam with last_mouse_pos := none}, false) := by
      unfold Camera.updateByMouse
      rw [if_pos hc]
    rw [hm]
    exact ⟨rfl, rfl, rfl⟩
  · cases hl : cam.last_mouse_pos with
    | none =>
      have hm : cam.updateByMouse inp =
          ({cam with last_mouse_pos := some inp.cursor}, false) := by
        unfold Camera.updateByMouse
        rw [if_neg hc, hl]
      rw [hm]
      exact ⟨rfl, rfl, rfl⟩
    | some lp =>
      have htrue : (cam.updateByMouse inp).2 = true := by
        unfold Camera.updateByMouse
        rw [if_neg hc, hl]
      rw [htrue] at h
      cases h

theorem updateByMouse_change_inv (cam : Camera) (inp : CamInput)
    (h : (cam.updateByMouse inp).2 = true) :
    inp.ctrl = true ∧ inp.lmb = true ∧ ∃ lp, cam.last_mouse_pos = some lp := by
  unfold Camera.updateByMouse at h
  by_cases hc : (!inp.ctrl || !inp.lmb) = true
  · rw [if_pos hc] at h
    simp at h
  · rw [if_neg hc] at h
    simp only [Bool.or_eq_true, Bool.not_eq_true'] at hc
    push_neg at hc
    cases hl : cam.last_mouse_pos with
    | none =>
      rw [hl] at h
      simp at h
    | some lp =>
      exact ⟨Bool.ne_false_iff.mp hc.1, Bool.ne_false_iff.mp hc.2, lp, rfl⟩

theorem mouse_rotation_preserves (cam : Camera) (inp : CamInput) (lp : ℝ × ℝ)
    (hc : inp.ctrl = true) (hl : inp.lmb = true) (hp : cam.last_mouse_pos = some lp)
    (hup : dot3 cam.up cam.up = 1) (hne : cam.camera_pos ≠ cam.lookat_pos) :
    (cam.updateByMouse inp).1.up = cam.up ∧
    dot3 ((cam.updateByMouse inp).1.camera_pos - (cam.updateByMouse inp).1.lookat_pos)
      ((cam.updateByMouse inp).1.camera_pos - (cam.updateByMouse inp).1.lookat_pos)
      = dot3 (cam.camera_pos - cam.lookat_pos) (cam.camera_pos - cam.lookat_pos) := by
  have hout : cam.camera_pos - cam.lookat_pos ≠ 0 := sub_ne_zero.mpr hne
  have hupne : cam.up ≠ 0 := by
    intro h0
    rw [h0] at hup
    norm_num [dot3] at hup
  have hld : cam.computeLeftDir (npNormalize (-(cam.camera_pos - cam.lookat_pos))) ≠ 0 :=
    computeLeftDir_ne_zero cam _ hup (npNormalize_normSq _ (neg_ne_zero.mpr hout))
  refine ⟨by simp [Camera.updateByMouse, hc, hl, hp], ?_⟩
  have h1 : (cam.updateByMouse inp).1.camera_pos - (cam.updateByMouse inp).1.lookat_pos
      = (let w := (npRotateMatrix
            (cam.computeLeftDir (npNormalize (-(cam.camera_pos - cam.lookat_pos))))
            (lp.2 - inp.cursor.2)
          * npRotateMatrix cam.up (lp.1 - inp.cursor.1)).mulVec
          ![(cam.camera_pos - cam.lookat_pos).1, (cam.camera_pos - cam.lookat_pos).2.1,
            (cam.camera_pos - cam.lookat_pos).2.2, 0]
         ((w 0, w 1, w 2) : V3)) := by
    simp [Camera.updateByMouse, hc, hl, hp]
  rw [h1]
  exact rot2_normSq cam.up _ (lp.1 - inp.cursor.1) (lp.2 - inp.cursor.2) hupne hld
    (cam.camera_pos - cam.lookat_pos)

/-- Witness for C6 at a concrete camera pose and pointer drag. -/
theorem mouse_rotation_formula_witness :
    (let cam : Camera := ⟨(1, 3/2, 2), (0, 0, 0), (0, 1, 0), some (0, 0)⟩
     let inp : CamInput :=
      { ctrl := true, lmb := true, cursor := (1/10, 1/5),
        keyW := false, keyA := false, keyS := false, keyD := false,
        keyE := false, keyQ := false }
     cam.last_mouse_pos = some (0, 0) ∧
     (let dx := (0 : ℝ) - inp.cursor.1
      let dy := (0 : ℝ) - inp.cursor.2
      let outDir := cam.camera_pos - cam.lookat_pos
      let leftdir := cam.computeLeftDir (npNormalize (-outDir))
      let rotx := npRotateMatrix cam.up dx
      let roty := npRotateMatrix leftdir dy
      let w := (roty * rotx).mulVec ![outDir.1, outDir.2.1, outDir.2.2, 0]
      (cam.updateByMouse inp).1.camera_pos = cam.lookat_pos + ((w 0, w 1, w 2) : V3) ∧
      (cam.updateByMouse inp).1.lookat_pos = cam.lookat_pos ∧
      (cam.updateByMouse inp).1.up = cam.up ∧
      (cam.updateByMouse inp).2 = true)) :=
  ⟨rfl, mouse_rotation_formula ⟨(1, 3/2, 2), (0, 0, 0), (0, 1, 0), some (0, 0)⟩ _ (0, 0)
    rfl rfl rfl⟩

/-- C9: under exact arithmetic every camera operation preserves the
invariants — `up` (the unit normalization of the construction-time vector)
is never mutated, the out-direction's squared length is preserved (rotation
maps `position − lookAt` through a length-preserving rotation matrix; key
translation shifts both points equally), and `position ≠ lookAt` is
maintained. -/
theorem camera_invariants (cam : Camera) (inp : CamInput)
    (hup : dot3 cam.up cam.up = 1) (hne : cam.camera_pos ≠ cam.lookat_pos) :
    (cam.updateCamera inp).1.up = cam.up ∧
    dot3 ((cam.updateCamera inp).1.camera_pos - (cam.updateCamera inp).1.lookat_pos)
      ((cam.updateCamera inp).1.camera_pos - (cam.updateCamera inp).1.lookat_pos)
      = dot3 (cam.camera_pos - cam.lookat_pos) (cam.camera_pos - cam.lookat_pos) ∧
    (cam.updateCamera inp).1.camera_pos ≠ (cam.updateCamera inp).1.lookat_pos ∧
    ∀ u : V3, u ≠ 0 → dot3 (Camera.init u).up (Camera.init u).up = 1 := by
  have hinit : ∀ u : V3, u ≠ 0 → dot3 (Camera.init u).up (Camera.init u).up = 1 :=
    fun u hu => npNormalize_normSq u hu
  have main : (cam.updateCamera inp).1.up = cam.up ∧
      dot3 ((cam.updateCamera inp).1.camera_pos - (cam.updateCamera inp).1.lookat_pos)
        ((cam.updateCamera inp).1.camera_pos - (cam.updateCamera inp).1.lookat_pos)
        = dot3 (cam.camera_pos - cam.lookat_pos) (cam.camera_pos - cam.lookat_pos) := by
    by_cases hflag : (cam.updateByMouse inp).2 = true
    · obtain ⟨hc, hl, lp, hp⟩ := updateByMouse_change_inv cam inp hflag
      have hpres := mouse_rotation_preserves cam inp lp hc hl hp hup hne
      have heq : cam.updateCamera inp = ((cam.updateByMouse inp).1, true) := by
        unfold Camera.updateCamera
        rw [if_pos hflag]
      rw [heq]
      exact hpres
    · have hflag' : (cam.updateByMouse inp).2 = false := by
        cases hb : (cam.updateByMouse inp).2
        · rfl
        · exact absurd hb hflag
      have hmou := updateByMouse_nochange cam inp hflag'
      have heq : cam.updateCamera inp = (cam.updateByMouse inp).1.updateByWasd inp := by
        unfold Camera.updateCamera
        rw [if_neg hflag]
      rw [heq]
      have hw := wasd_up_diff (cam.updateByMouse inp).1 inp
      refine ⟨?_, ?_⟩
      · rw [hw.1, hmou.2.2]
      · rw [hw.2, hmou.1, hmou.2.1]
  have hdpos : 0 < dot3 (cam.camera_pos - cam.lookat_pos) (cam.camera_pos - cam.lookat_pos) :=
    dot3_pos _ (sub_ne_zero.mpr hne)
  have hdpos' : 0 < dot3
      ((cam.updateCamera inp).1.camera_pos - (cam.updateCamera inp).1.lookat_pos)
      ((cam.updateCamera inp).1.camera_pos - (cam.updateCamera inp).1.lookat_pos) := by
    rw [main.2]
    exact hdpos
  exact ⟨main.1, main.2, sub_ne_zero.mp (ne_zero_of_dot3_pos _ hdpos'), hinit⟩

/-- Witness for C9 at the construction-time pose with no input held. -/
theorem camera_invariants_witness :
    (let cam : Camera := ⟨(1, 3/2, 2), (0, 0, 0), (0, 1, 0), none⟩
     let inp : CamInput :=
      { ctrl := false, lmb := false, cursor := (0, 0),
        keyW := false, keyA := false, keyS := false, keyD := false,
        keyE := false, keyQ := false }
     dot3 cam.up cam.up = 1 ∧ cam.camera_pos ≠ cam.lookat_pos ∧
     ((cam.updateCamera inp).1.up = cam.up ∧
      dot3 ((cam.updateCamera inp).1.camera_pos - (cam.updateCamera inp).1.lookat_pos)
        ((cam.updateCamera inp).1.camera_pos - (cam.updateCamera inp).1.lookat_pos)
        = dot3 (cam.camera_pos - cam.lookat_pos) (cam.camera_pos - cam.lookat_pos) ∧
      (cam.updateCamera inp).1.camera_pos ≠ (cam.updateCamera inp).1.lookat_pos ∧
      ∀ u : V3, u ≠ 0 → dot3 (Camera.init u).up (Camera.init u).up = 1)) :=
  ⟨by norm_num [dot3], by norm_num [Prod.ext_iff],
   camera_invariants ⟨(1, 3/2, 2), (0, 0, 0), (0, 1, 0), none⟩ _
     (by norm_num [dot3]) (by norm_num [Prod.ext_iff])⟩

/-- C7 counterexample: with `up = (0,1,0)`, `position = (0,0,0)`,
`lookAt = (1,1,0)` and only the left-movement key held, the applied step is
`0.05 · cross(up, targetDir)`, whose squared length is `1/800`, not
`(0.05)² = 1/400` — the chosen direction is not unit length, so the claim's
"the chosen unit direction scaled by 0.05 is added" fails. -/
theorem wasd_unit_direction_cex :
    ((Camera.updateCamera ⟨(0, 0, 0), (1, 1, 0), (0, 1, 0), none⟩
        { ctrl := false, lmb := false, cursor := (0, 0), keyW := false, keyA := true,
          keyS := false, keyD := false, keyE := false, keyQ := false }).2 = true ∧
     dot3 ((Camera.updateCamera ⟨(0, 0, 0), (1, 1, 0), (0, 1, 0), none⟩
        { ctrl := false, lmb := false, cursor := (0, 0), keyW := false, keyA := true,
          keyS := false, keyD := false, keyE := false, keyQ := false }).1.camera_pos
          - ((0, 0, 0) : V3))
       ((Camera.updateCamera ⟨(0, 0, 0), (1, 1, 0), (0, 1, 0), none⟩
        { ctrl := false, lmb := false, cursor := (0, 0), keyW := false, keyA := true,
          keyS := false, keyD := false, keyE := false, keyQ := false }).1.camera_pos
          - ((0, 0, 0) : V3)) = 1/800 ∧
     ((1 : ℝ)/800) ≠ ((1 : ℝ)/20) * ((1 : ℝ)/20)) := by
  set cam0 : Camera := ⟨(0, 0, 0), (1, 1, 0), (0, 1, 0), none⟩ with hcam0
  set inp0 : CamInput :=
    { ctrl := false, lmb := false, cursor := (0, 0), keyW := false, keyA := true,
      keyS := false, keyD := false, keyE := false, keyQ := false } with hinp0
  have hss : Real.sqrt 2 * Real.sqrt 2 = 2 := Real.mul_self_sqrt (by norm_num)
  have hspos : 0 < Real.sqrt 2 := Real.sqrt_pos.mpr (by norm_num)
  have h14 : (7/5 : ℝ) < Real.sqrt 2 := (Real.lt_sqrt (by norm_num)).mpr (by norm_num)
  have hmouse : Camera.updateByMouse cam0 inp0 = (cam0, false) := rfl
  have hupdate : Camera.updateCamera cam0 inp0 = Camera.updateByWasd cam0 inp0 := by
    unfold Camera.updateCamera
    rw [hmouse]
    rfl
  have hsub : cam0.lookat_pos - cam0.camera_pos = ((1:ℝ), (1:ℝ), (0:ℝ)) := by
    show ((1:ℝ), (1:ℝ), (0:ℝ)) - ((0:ℝ), (0:ℝ), (0:ℝ)) = ((1:ℝ), (1:ℝ), (0:ℝ))
    norm_num [Prod.ext_iff]
  have hdot2 : dot3 ((1:ℝ), (1:ℝ), (0:ℝ)) ((1:ℝ), (1:ℝ), (0:ℝ)) = 2 := by
    norm_num [dot3]
  have htgt : cam0.targetDir = (1/Real.sqrt 2, 1/Real.sqrt 2, 0) := by
    unfold Camera.targetDir
    rw [hsub]
    simp only [npNormalize]
    rw [hdot2]
    norm_num [Prod.ext_iff]
  have hdotup : dot3 cam0.up ((1/Real.sqrt 2, 1/Real.sqrt 2, 0) : V3) = 1/Real.sqrt 2 := by
    show dot3 ((0:ℝ), (1:ℝ), (0:ℝ)) _ = _
    norm_num [dot3]
  have hlt : |(1:ℝ)/Real.sqrt 2| ≤ 999/1000 := by
    rw [abs_of_nonneg (by positivity)]
    calc (1:ℝ)/Real.sqrt 2 ≤ 1/(7/5) :=
          one_div_le_one_div_of_le (by norm_num) h14.le
      _ = 5/7 := by norm_num
      _ ≤ 999/1000 := by norm_num
  have hleft : cam0.computeLeftDir ((1/Real.sqrt 2, 1/Real.sqrt 2, 0) : V3)
      = ((0:ℝ), (0:ℝ), -(1/Real.sqrt 2)) := by
    unfold Camera.computeLeftDir
    rw [hdotup, if_neg (not_lt.mpr hlt)]
    show cross3 ((0:ℝ), (1:ℝ), (0:ℝ)) _ = _
    norm_num [cross3, Prod.ext_iff]
  have hwasd : Camera.updateByWasd cam0 inp0 =
      (⟨((0:ℝ), (0:ℝ), (0:ℝ)) + ((5:ℝ)/100) • ((0:ℝ), (0:ℝ), -(1/Real.sqrt 2)),
        ((1:ℝ), (1:ℝ), (0:ℝ)) + ((5:ℝ)/100) • ((0:ℝ), (0:ℝ), -(1/Real.sqrt 2)),
        ((0:ℝ), (1:ℝ), (0:ℝ)), none⟩, true) := by
    simp only [Camera.updateByWasd]
    rw [htgt, hleft]
    rfl
  have hhalf : (1/Real.sqrt 2) * (1/Real.sqrt 2) = 1/2 := by
    rw [div_mul_div_comm, hss]
    norm_num
  refine ⟨?_, ?_, by norm_num⟩
  · rw [hupdate, hwasd]
  · rw [hupdate, hwasd]
    show dot3 (((0:ℝ), (0:ℝ), (0:ℝ)) + ((5:ℝ)/100) • ((0:ℝ), (0:ℝ), -(1/Real.sqrt 2))
        - ((0, 0, 0) : V3)) _ = 1/800
    rw [Prod.smul_mk, Prod.smul_mk]
    simp only [smul_eq_mul]
    rw [show (((0:ℝ), (0:ℝ), (0:ℝ)) : V3)
        + ((5:ℝ)/100 * 0, (5:ℝ)/100 * 0, (5:ℝ)/100 * -(1/Real.sqrt 2))
        - ((0, 0, 0) : V3)
        = (((5:ℝ)/100 * 0, (5:ℝ)/100 * 0, (5:ℝ)/100 * -(1/Real.sqrt 2)) : V3) by
      norm_num [Prod.ext_iff]]
    simp only [dot3]
    nlinarith [hhalf]

/-- C7 (amended): when the rotation path reports no change, the WASD path
runs on the (pointer-state-updated) camera; exactly one direction is applied
per frame in the fixed priority order w, a, s, d, e, q (the direction is the
table's entry — not necessarily unit length for a/d); the direction scaled
by `0.05` is added to both `position` and `lookAt`, leaving their difference
unchanged, and the update reports a change; with no movement key held the
pose is unchanged and it reports no change. -/
theorem wasd_priority_translation (cam : Camera) (inp : CamInput)
    (hm : (cam.updateByMouse inp).2 = false) :
    cam.updateCamera inp = (cam.updateByMouse inp).1.updateByWasd inp ∧
    ∀ c : Camera,
      ((c.updateByWasd inp).1.lookat_pos - (c.updateByWasd inp).1.camera_pos
          = c.lookat_pos - c.camera_pos) ∧
      (inp.keyW = false → inp.keyA = false → inp.keyS = false → inp.keyD = false →
        inp.keyE = false → inp.keyQ = false → c.updateByWasd inp = (c, false)) ∧
      (inp.keyW = true →
        c.updateByWasd inp =
          ({c with lookat_pos := c.lookat_pos + ((5:ℝ)/100) • c.targetDir,
                   camera_pos := c.camera_pos + ((5:ℝ)/100) • c.targetDir}, true)) ∧
      (inp.keyW = false → inp.keyA = true →
        c.updateByWasd inp =
          ({c with
              lookat_pos := c.lookat_pos + ((5:ℝ)/100) • c.computeLeftDir c.targetDir,
              camera_pos := c.camera_pos + ((5:ℝ)/100) • c.computeLeftDir c.targetDir},
           true)) ∧
      (inp.keyW = false → inp.keyA = false → inp.keyS = true →
        c.updateByWasd inp =
          ({c with lookat_pos := c.lookat_pos + ((5:ℝ)/100) • (-c.targetDir),
                   camera_pos := c.camera_pos + ((5:ℝ)/100) • (-c.targetDir)}, true)) ∧
      (inp.keyW = false → inp.keyA = false → inp.keyS = false → inp.keyD = true →
        c.updateByWasd inp =
          ({c with
              lookat_pos := c.lookat_pos + ((5:ℝ)/100) • (-(c.computeLeftDir c.targetDir)),
              camera_pos := c.camera_pos + ((5:ℝ)/100) • (-(c.computeLeftDir c.targetDir))},
           true)) ∧
      (inp.keyW = false → inp.keyA = false → inp.keyS = false → inp.keyD = false →
        inp.keyE = true →
        c.updateByWasd inp =
          ({c with lookat_pos := c.lookat_pos + ((5:ℝ)/100) • ((0, 1, 0) : V3),
                   camera_pos := c.camera_pos + ((5:ℝ)/100) • ((0, 1, 0) : V3)}, true)) ∧
      (inp.keyW = false → inp.keyA = false → inp.keyS = false → inp.keyD = false →
        inp.keyE = false → inp.keyQ = true →
        c.updateByWasd inp =
          ({c with lookat_pos := c.lookat_pos + ((5:ℝ)/100) • ((0, -1, 0) : V3),
                   camera_pos := c.camera_pos + ((5:ℝ)/100) • ((0, -1, 0) : V3)}, true)) := by
  constructor
  · simp [Camera.updateCamera, hm]
  · intro c
    refine ⟨?_, ?_, ?_, ?_, ?_, ?_, ?_, ?_⟩
    · have h := (wasd_up_diff c inp).2
      rw [← neg_sub (c.updateByWasd inp).1.camera_pos, h, neg_sub]
    · intro h1 h2 h3 h4 h5 h6
      simp [Camera.updateByWasd, h1, h2, h3, h4, h5, h6]
    · intro h1
      simp [Camera.updateByWasd, h1]
    · intro h1 h2
      simp [Camera.updateByWasd, h1, h2]
    · intro h1 h2 h3
      simp [Camera.updateByWasd, h1, h2, h3]
    · intro h1 h2 h3 h4
      simp [Camera.updateByWasd, h1, h2, h3, h4]
    · intro h1 h2 h3 h4 h5
      simp [Camera.updateByWasd, h1, h2, h3, h4, h5]
    · intro h1 h2 h3 h4 h5 h6
      simp [Camera.updateByWasd, h1, h2, h3, h4, h5, h6]

/-- Witness for C7's amended statement with only the forward key held. -/
theorem wasd_priority_translation_witness :
    (let cam : Camera := ⟨(1, 3/2, 2), (0, 0, 0), (0, 1, 0), none⟩
     let inp : CamInput :=
      { ctrl := false, lmb := false, cursor := (0, 0), keyW := true, keyA := true,
        keyS := false, keyD := false, keyE := false, keyQ := false }
     (cam.updateByMouse inp).2 = false ∧
     (cam.updateCamera inp = (cam.updateByMouse inp).1.updateByWasd inp ∧
      ∀ c : Camera,
        ((c.updateByWasd inp).1.lookat_pos - (c.updateByWasd inp).1.camera_pos
            = c.lookat_pos - c.camera_pos) ∧
        (inp.keyW = false → inp.keyA = false → inp.keyS = false → inp.keyD = false →
          inp.keyE = false → inp.keyQ = false → c.updateByWasd inp = (c, false)) ∧
        (inp.keyW = true →
          c.updateByWasd inp =
            ({c with lookat_pos := c.lookat_pos + ((5:ℝ)/100) • c.targetDir,
                     camera_pos := c.camera_pos + ((5:ℝ)/100) • c.targetDir}, true)) ∧
        (inp.keyW = false → inp.keyA = true →
          c.updateByWasd inp =
            ({c with
                lookat_pos := c.lookat_pos + ((5:ℝ)/100) • c.computeLeftDir c.targetDir,
                camera_pos := c.camera_pos + ((5:ℝ)/100) • c.computeLeftDir c.targetDir},
             true)) ∧
        (inp.keyW = false → inp.keyA = false → inp.keyS = true →
          c.updateByWasd inp =
            ({c with lookat_pos := c.lookat_pos + ((5:ℝ)/100) • (-c.targetDir),
                     camera_pos := c.camera_pos + ((5:ℝ)/100) • (-c.targetDir)}, true)) ∧
        (inp.keyW = false → inp.keyA = false → inp.keyS = false → inp.keyD = true →
          c.updateByWasd inp =
            ({c with
                lookat_pos := c.lookat_pos
                  + ((5:ℝ)/100) • (-(c.computeLeftDir c.targetDir)),
                camera_pos := c.camera_pos
                  + ((5:ℝ)/100) • (-(c.computeLeftDir c.targetDir))},
             true)) ∧
        (inp.keyW = false → inp.keyA = false → inp.keyS = false → inp.keyD = false →
          inp.keyE = true →
          c.updateByWasd inp =
            ({c with lookat_pos := c.lookat_pos + ((5:ℝ)/100) • ((0, 1, 0) : V3),
                     camera_pos := c.camera_pos + ((5:ℝ)/100) • ((0, 1, 0) : V3)}, true)) ∧
        (inp.keyW = false → inp.keyA = false → inp.keyS = false → inp.keyD = false →
          inp.keyE = false → inp.keyQ = true →
          c.updateByWasd inp =
            ({c with lookat_pos := c.lookat_pos + ((5:ℝ)/100) • ((0, -1, 0) : V3),
                     camera_pos := c.camera_pos + ((5:ℝ)/100) • ((0, -1, 0) : V3)},
             true)))) :=
  ⟨rfl, wasd_priority_translation ⟨(1, 3/2, 2), (0, 0, 0), (0, 1, 0), none⟩ _ rfl⟩

/-- Witness for C10: a fresh processor reports `mouse_moved` even with the
pointer at the origin. -/
theorem first_frame_mouse_moved_witness :
    (let inp : EditFrameInput :=
      { cursorPos := (0, 0), lmb := false, rmb := false, releaseEvents := false,
        raycast := fun _ _ => none }
     let s : EditModeProcessor := ⟨false, none, false⟩
     s.last_mouse_pos = none ∧
     ((s.process inp false).1.mouse_moved = true ∧
      editShouldReset s inp false = true ∧
      ∀ cch : Bool,
        (loopStep ⟨true, s⟩ ⟨false, inp, false, cch⟩).2.2.2 = true)) :=
  ⟨rfl, first_frame_mouse_moved ⟨false, none, false⟩ _ false rfl⟩

end VoxelEditor
